import Mathlib

/-!
Verification of the csv2sql converter (type inference and SQL statement
generation).  The Go source is shallowly embedded: strings are modelled as
`String` / `List Char`, the CSV reader's records as `List String`, and the
two passes (`determineColumnTypes`, `generateInsertStatements`) as
recursive functions over the list of data rows.  Go standard library
calls (`strings.TrimSpace`, `strings.EqualFold`, `strings.ReplaceAll`,
`strconv.ParseInt`, `strconv.ParseFloat`) are modelled by executable
functions defined below; each model's doc comment states its scope.

The repository contains two complete drafts of the converter
(`part_002`, the `Config`-based draft, and `part_001`, the `OptsT`-based
draft wired to the CLI) plus a third partial draft in `main.go`.  The
embedding follows `part_002`, which the claims cite as primary; where a
claim depends on `part_001`'s diverging serializer, that variant is
embedded separately (`genLoopP1`).
-/

namespace Csv2Sql

/-- Models `unicode.IsSpace` on the ASCII range (space, tab, newline,
vertical tab, form feed, carriage return).  Non-ASCII Unicode space
characters are not modelled. -/
def goIsSpace (c : Char) : Bool :=
  c == ' ' || c == '\t' || c == '\n' || c == '\r' || c.toNat == 11 || c.toNat == 12

/-- Models `strings.TrimSpace`: drop leading and trailing whitespace. -/
def goTrimSpace (l : List Char) : List Char :=
  ((l.dropWhile goIsSpace).reverse.dropWhile goIsSpace).reverse

/-- ASCII case folding of one character, as `strings.EqualFold` performs
on ASCII input. -/
def foldChar (c : Char) : Char :=
  if c.isUpper then c.toLower else c

/-- Models `strings.EqualFold` restricted to ASCII simple case folding. -/
def goEqualFold : List Char → List Char → Bool
  | [], [] => true
  | a :: as, b :: bs => (foldChar a == foldChar b) && goEqualFold as bs
  | _, _ => false

/-- `strings.TrimSpace` on `String`. -/
def trimS (s : String) : String := ⟨goTrimSpace s.data⟩

/-- `strings.EqualFold` on `String`. -/
def eqFoldS (a b : String) : Bool := goEqualFold a.data b.data

/-- Models `strings.ReplaceAll` for the single-character patterns used by
the converter: every occurrence of `c` is replaced by `rep`. -/
def replaceAllChar (c : Char) (rep : List Char) : List Char → List Char
  | [] => []
  | x :: xs => if x == c then rep ++ replaceAllChar c rep xs else x :: replaceAllChar c rep xs

/-- The serializer's escaping: first every single quote becomes two single
quotes, then every backslash becomes two backslashes
(`generateInsertStatements`, part_002 lines 321-322). -/
def escapeVal (s : String) : String :=
  ⟨replaceAllChar '\\' ['\\', '\\'] (replaceAllChar '\'' ['\'', '\''] s.data)⟩

/-- Per-character reading of the escaping rule: a quote doubles, a
backslash doubles, anything else is kept. -/
def escCharSpec (c : Char) : List Char :=
  if c == '\'' then ['\'', '\'']
  else if c == '\\' then ['\\', '\\']
  else [c]

/-- All characters are decimal digits. -/
def allDigits (l : List Char) : Bool := l.all Char.isDigit

/-- Numeric value of a list of decimal digits. -/
def decDigitsVal : List Char → Nat → Nat
  | [], acc => acc
  | c :: cs, acc => decDigitsVal cs (acc * 10 + (c.toNat - 48))

/-- Models success of `strconv.ParseInt(s, 10, 64)`: an optional sign,
then a nonempty run of decimal digits, with the value within the signed
64-bit range. -/
def isIntegerL (s : List Char) : Bool :=
  match s with
  | [] => false
  | c :: rest =>
    if c == '-' then !rest.isEmpty && allDigits rest && decide (decDigitsVal rest 0 ≤ 2 ^ 63)
    else if c == '+' then !rest.isEmpty && allDigits rest && decide (decDigitsVal rest 0 < 2 ^ 63)
    else allDigits s && decide (decDigitsVal s 0 < 2 ^ 63)

/-- An optional exponent part: empty, or `e`/`E`, an optional sign and a
nonempty run of digits. -/
def expPartOk (s : List Char) : Bool :=
  match s with
  | [] => true
  | c :: rest =>
    (c == 'e' || c == 'E') &&
      (let rest2 := match rest with
        | d :: r2 => if d == '+' || d == '-' then r2 else rest
        | [] => rest
       !rest2.isEmpty && rest2.all Char.isDigit)

/-- A decimal floating-point body after the sign: integer digits, an
optional fraction, at least one digit overall, and an optional exponent. -/
def decFloatOk (s : List Char) : Bool :=
  let ip := s.takeWhile Char.isDigit
  let r1 := s.dropWhile Char.isDigit
  match r1 with
  | [] => !ip.isEmpty
  | c :: r2 =>
    if c == '.' then
      let fp := r2.takeWhile Char.isDigit
      let r3 := r2.dropWhile Char.isDigit
      (!ip.isEmpty || !fp.isEmpty) && expPartOk r3
    else !ip.isEmpty && expPartOk r1

/-- Strip one leading `+` or `-`. -/
def stripSignF (s : List Char) : List Char :=
  match s with
  | [] => []
  | c :: rest => if c == '+' || c == '-' then rest else s

/-- Models success of `strconv.ParseFloat(s, 64)` on decimal syntax:
an optionally signed decimal mantissa with optional exponent, or the
special values `inf`/`infinity` (optionally signed) and `nan`, case
insensitively.  Hexadecimal float literals and digit-separating
underscores are not modelled. -/
def goParseFloatOk (s : List Char) : Bool :=
  let body := stripSignF s
  goEqualFold body ['i', 'n', 'f'] ||
  goEqualFold body ['i', 'n', 'f', 'i', 'n', 'i', 't', 'y'] ||
  goEqualFold s ['n', 'a', 'n'] ||
  decFloatOk body

/-- `isInteger` from the source (part_002 lines 379-382). -/
def isInteger (s : String) : Bool := isIntegerL s.data

/-- `isDecimal` from the source (part_002 lines 384-387). -/
def isDecimal (s : String) : Bool := goParseFloatOk s.data

/-- A fixed shape of character predicates, matched against a list of the
same length.  Used to model the anchored date regular expressions. -/
def matchShape : List (Char → Bool) → List Char → Bool
  | [], [] => true
  | p :: ps, c :: cs => p c && matchShape ps cs
  | _, _ => false

/-- The shape of `^\d{4}-\d{2}-\d{2}$` (`YYYY-MM-DD`). -/
def patYMD : List (Char → Bool) :=
  [Char.isDigit, Char.isDigit, Char.isDigit, Char.isDigit, fun c => c == '-',
   Char.isDigit, Char.isDigit, fun c => c == '-', Char.isDigit, Char.isDigit]

/-- The shape of `^\d{2}/\d{2}/\d{4}$` (`MM/DD/YYYY`). -/
def patMDY : List (Char → Bool) :=
  [Char.isDigit, Char.isDigit, fun c => c == '/', Char.isDigit, Char.isDigit,
   fun c => c == '/', Char.isDigit, Char.isDigit, Char.isDigit, Char.isDigit]

/-- The shape of `\d{2}:\d{2}:\d{2}` (`HH:MM:SS`). -/
def patHMS : List (Char → Bool) :=
  [Char.isDigit, Char.isDigit, fun c => c == ':', Char.isDigit, Char.isDigit,
   fun c => c == ':', Char.isDigit, Char.isDigit]

/-- Models `isDate` (part_002 lines 389-406): the five anchored date /
datetime regular expressions, tried in order; the ISO8601 pattern's
optional trailing `Z` is expanded into its two alternatives. -/
def isDateL (s : List Char) : Bool :=
  matchShape patYMD s ||
  matchShape patMDY s ||
  matchShape (patYMD ++ [fun c => c == ' '] ++ patHMS) s ||
  matchShape (patMDY ++ [fun c => c == ' '] ++ patHMS) s ||
  matchShape (patYMD ++ [fun c => c == 'T'] ++ patHMS) s ||
  matchShape (patYMD ++ [fun c => c == 'T'] ++ patHMS ++ [fun c => c == 'Z']) s

/-- `isDate` on `String`. -/
def isDate (s : String) : Bool := isDateL s.data

/-- The converter's configuration (part_002 lines 14-29).  `InputFile`
and `Delimiter` only steer the CSV reader, which is outside the
embedding, and are omitted.  The Go maps `ForceTypes` and `SkipColumns`
are modelled as an association list and a name list. -/
structure Config where
  TableName     : String
  HasHeader     : Bool
  VarcharLength : Nat
  TextThreshold : Nat
  BatchInsert   : Bool
  BatchSize     : Nat
  NullString    : String
  ForceTypes    : List (String × String)
  SkipColumns   : List String
  PrimaryKeys   : List String
  MaxSampleSize : Nat
  deriving Repr, DecidableEq

/-- `DefaultConfig` (part_002 lines 31-45); the unset Go fields take
their zero values. -/
def defaultConfig : Config where
  TableName     := ""
  HasHeader     := true
  VarcharLength := 255
  TextThreshold := 500
  BatchInsert   := true
  BatchSize     := 100
  NullString    := "NULL"
  ForceTypes    := []
  SkipColumns   := []
  PrimaryKeys   := []
  MaxSampleSize := 1000

/-- A character kept by the sanitization regex `[^a-zA-Z0-9_]+`: ASCII
letter, decimal digit, or underscore. -/
def isWordChar (c : Char) : Bool := c.isAlpha || c.isDigit || c == '_'

/-- State machine behind `collapseNonWord`: the flag records whether the
previous character belonged to a run of non-word characters (whose
single replacement underscore has already been emitted). -/
def collapseGo : List Char → Bool → List Char
  | [], _ => []
  | c :: rest, inRun =>
    if isWordChar c then c :: collapseGo rest false
    else if inRun then collapseGo rest true
    else '_' :: collapseGo rest true

/-- Models `sanitizeRegex.ReplaceAllString(name, "_")` with
`sanitizeRegex = [^a-zA-Z0-9_]+`: each maximal run of non-word
characters is replaced by a single underscore. -/
def collapseNonWord (l : List Char) : List Char := collapseGo l false

/-- Models `strings.Trim(name, "_")`: remove leading and trailing
underscores. -/
def trimUnderscores (l : List Char) : List Char :=
  ((l.dropWhile (fun c => c == '_')).reverse.dropWhile (fun c => c == '_')).reverse

/-- Models the `leadingRegex = ^[^a-zA-Z_]` fix-up: when the (nonempty)
result does not start with an ASCII letter or underscore, prefix an
underscore. -/
def fixLeading (l : List Char) : List Char :=
  match l with
  | [] => []
  | c :: _ => if c.isAlpha || c == '_' then l else '_' :: l

/-- `sanitizeColumnName` (part_002 lines 136-148): trim whitespace,
collapse non-word runs to underscores, trim underscores, fix the leading
character, lowercase.  `strings.ToLower` is modelled by `Char.toLower`,
which agrees on the ASCII-only intermediate string. -/
def sanitizeColumnName (s : String) : String :=
  ⟨(fixLeading (trimUnderscores (collapseNonWord (goTrimSpace s.data)))).map Char.toLower⟩

/-- The specification's per-character reading of the replacement step:
every single non-word character becomes one underscore (runs do not
collapse).  Used only to compare `sanitizeColumnName` against the
claim's wording. -/
def sanitizePerCharSpec (s : String) : String :=
  ⟨(fixLeading (trimUnderscores ((goTrimSpace s.data).map
      (fun c => if isWordChar c then c else '_')))).map Char.toLower⟩

/-- `refineType` (part_002 lines 222-245).  Note that the body never
inspects `currentType`; the result depends on the value alone.
`len(value)` is modelled as the character count, which equals Go's byte
count on ASCII data. -/
def refineType (cfg : Config) (currentType : String) (value : String) : String :=
  if isInteger value then "BIGINT"
  else if isDecimal value then "DECIMAL(20,6)"
  else if isDate value then
    (if 10 < value.data.length then "DATETIME" else "DATE")
  else
    let length := value.data.length
    if cfg.TextThreshold < length then "TEXT"
    else if cfg.VarcharLength < length then
      "VARCHAR(" ++ toString ((length / 50 + 1) * 50) ++ ")"
    else "VARCHAR(" ++ toString cfg.VarcharLength ++ ")"

/-- The forced-type lookup `c.config.ForceTypes[headers[i]]`. -/
def lookupForce (cfg : Config) (h : String) : Option String :=
  cfg.ForceTypes.lookup h

/-- Initial type of one column (part_002 lines 151-160): the forced type
if present, else `SKIP` for a skipped name, else `TEXT`. -/
def initType (cfg : Config) (h : String) : String :=
  match lookupForce cfg h with
  | some ft => ft
  | none => if h ∈ cfg.SkipColumns then "SKIP" else "TEXT"

/-- Does the second list start with the first?  Models
`strings.HasPrefix` for the `allForced` check. -/
def leadMatch : List Char → List Char → Bool
  | [], _ => true
  | _ :: _, [] => false
  | p :: ps, c :: cs => p == c && leadMatch ps cs

/-- The `allForced` fast-path test (part_002 lines 163-169): every
column's initial type is a `VARCHAR...` or `SKIP`. -/
def allForcedCheck (t : String) : Bool :=
  leadMatch "VARCHAR".data t.data || t == "SKIP"

/-- One column's update inside the sampling loop (part_002 lines
190-211): skipped and forced columns are untouched; empty or
NULL-literal values (after trimming) are ignored; otherwise the type is
re-classified by `refineType`.  The source checks the forced-type map a
second time immediately before calling `refineType`; that check is
subsumed by the first and collapsed here. -/
def updateOne (cfg : Config) (h t v : String) : String :=
  if t == "SKIP" then t
  else if (lookupForce cfg h).isSome then t
  else
    let v' := trimS v
    if v' == "" || eqFoldS v' cfg.NullString then t
    else refineType cfg t v'

/-- Pointwise update of all column types by one sampled record. -/
def updateTypes (cfg : Config) : List String → List String → List String → List String
  | h :: hs, t :: ts, v :: vs => updateOne cfg h t v :: updateTypes cfg hs ts vs
  | _, ts, _ => ts

/-- The sampling loop (part_002 lines 174-217): rows whose field count
differs from the header count are skipped without counting; otherwise
the types are updated and sampling stops once `MaxSampleSize` rows have
been consumed. -/
def sampleLoop (cfg : Config) (hs : List String) :
    List String → List (List String) → Nat → List String
  | types, [], _ => types
  | types, r :: rs, count =>
    if r.length = hs.length then
      let types' := updateTypes cfg hs types r
      if cfg.MaxSampleSize ≤ count + 1 then types'
      else sampleLoop cfg hs types' rs (count + 1)
    else sampleLoop cfg hs types rs count

/-- `determineColumnTypes` (part_002 lines 150-220) over the list of
data records that the CSV reader would deliver. -/
def determineColumnTypes (cfg : Config) (hs : List String)
    (rows : List (List String)) : List String :=
  let init := hs.map (initType cfg)
  if init.all allForcedCheck then init
  else sampleLoop cfg hs init rows 0

/-- One value's SQL literal (part_002 lines 314-332): trim; empty or
NULL-literal becomes unquoted `NULL`; otherwise escape, and emit
unquoted when the column type is `INT` or `DECIMAL(20,6)` and the
trimmed value parses as a float, else single-quoted. -/
def serializeValue (cfg : Config) (t v : String) : String :=
  let v' := trimS v
  if v' == "" || eqFoldS v' cfg.NullString then "NULL"
  else
    let escaped := escapeVal v'
    if (t == "INT" || t == "DECIMAL(20,6)") && goParseFloatOk v'.data then escaped
    else "'" ++ escaped ++ "'"

/-- The `values` list built for one record (part_002 lines 308-333):
columns typed `SKIP` contribute nothing. -/
def serializeRow (cfg : Config) : List String → List String → List String
  | t :: ts, v :: vs =>
    if t == "SKIP" then serializeRow cfg ts vs
    else serializeValue cfg t v :: serializeRow cfg ts vs
  | _, _ => []

/-- One row's parenthesized value tuple. -/
def rowTuple (cfg : Config) (ts : List String) (r : List String) : String :=
  "(" ++ String.intercalate ", " (serializeRow cfg ts r) ++ ")"

/-- The backtick-quoted names of the non-skipped columns (part_002 lines
360-368). -/
def insertColumnNames : List String → List String → List String
  | h :: hs, t :: ts =>
    if t == "SKIP" then insertColumnNames hs ts
    else ("`" ++ h ++ "`") :: insertColumnNames hs ts
  | _, _ => []

/-- `formatInsertColumns` (part_002 lines 360-368). -/
def formatInsertColumns (hs ts : List String) : String :=
  String.intercalate ", " (insertColumnNames hs ts)

/-- The column-definition lines of the CREATE TABLE statement (part_002
lines 252-258): one per non-skipped column. -/
def createTableColumnDefs : List String → List String → List String
  | h :: hs, t :: ts =>
    if t == "SKIP" then createTableColumnDefs hs ts
    else ("  `" ++ h ++ "` " ++ t) :: createTableColumnDefs hs ts
  | _, _ => []

/-- The `columns` list of `generateCreateTable` (part_002 lines
252-267): the column definitions, then the PRIMARY KEY clause when
primary keys are configured. -/
def createTableColumns (cfg : Config) (hs ts : List String) : List String :=
  createTableColumnDefs hs ts ++
    (if cfg.PrimaryKeys.isEmpty then []
     else ["  PRIMARY KEY (" ++
       String.intercalate ", " (cfg.PrimaryKeys.map (fun pk => "`" ++ pk ++ "`")) ++ ")"])

/-- `generateCreateTable` (part_002 lines 248-273). -/
def generateCreateTable (cfg : Config) (hs ts : List String) : String :=
  "CREATE TABLE `" ++ cfg.TableName ++ "` (\n" ++
    String.intercalate ",\n" (createTableColumns cfg hs ts) ++
    "\n) ENGINE=InnoDB DEFAULT CHARSET=utf8mb4 COLLATE=utf8mb4_unicode_ci;"

/-- `formatBatchInsert` (part_002 lines 371-376). -/
def formatBatchInsert (cfg : Config) (hs ts : List String)
    (rows : List String) : String :=
  "INSERT INTO `" ++ cfg.TableName ++ "` (" ++ formatInsertColumns hs ts ++
    ") VALUES\n" ++ String.intercalate ",\n" rows ++ ";\n"

/-- One single-row INSERT statement (part_002 lines 342-345). -/
def singleInsert (cfg : Config) (hs ts : List String)
    (values : List String) : String :=
  "INSERT INTO `" ++ cfg.TableName ++ "` (" ++ formatInsertColumns hs ts ++
    ") VALUES (" ++ String.intercalate ", " values ++ ");\n"

/-- The row loop of `generateInsertStatements` (part_002 lines 294-356)
with its string builder `sb` and batch buffer `batchRows` made explicit.
A record whose field count differs from the header count aborts with an
error; otherwise its tuple is emitted directly or buffered, the buffer
being flushed when it reaches `BatchSize` rows and once more at the end
when nonempty.  The unused `rowCount` counter of the source is omitted. -/
def genLoop (cfg : Config) (hs ts : List String) :
    String → List String → List (List String) → Except String String
  | sb, batch, [] =>
    Except.ok (if batch.isEmpty then sb else sb ++ formatBatchInsert cfg hs ts batch)
  | sb, batch, r :: rs =>
    if r.length = hs.length then
      let values := serializeRow cfg ts r
      if cfg.BatchInsert then
        let batch' := batch ++ ["(" ++ String.intercalate ", " values ++ ")"]
        if cfg.BatchSize ≤ batch'.length then
          genLoop cfg hs ts (sb ++ formatBatchInsert cfg hs ts batch') [] rs
        else genLoop cfg hs ts sb batch' rs
      else genLoop cfg hs ts (sb ++ singleInsert cfg hs ts values) batch rs
    else
      Except.error ("column count mismatch: expected " ++ toString hs.length ++
        ", got " ++ toString r.length)

/-- `generateInsertStatements` (part_002 lines 276-357) over the list of
data records (the file reset and header skip are the reader's concern). -/
def generateInsertStatements (cfg : Config) (hs ts : List String)
    (rows : List (List String)) : Except String String :=
  genLoop cfg hs ts "" [] rows

/-- The part_001 serializer's empty-row test (part_001 lines 371-379):
the row is dropped when its first field — and its second, when present —
trims to the empty string or the NULL literal. -/
def p1RowIsNull (cfg : Config) (r : List String) : Bool :=
  match r with
  | [] => false
  | c0 :: rest =>
    let n0 := trimS c0 == "" || eqFoldS (trimS c0) cfg.NullString
    match rest with
    | [] => n0
    | c1 :: _ => n0 && (trimS c1 == "" || eqFoldS (trimS c1) cfg.NullString)

/-- The row loop of part_001's `generateInsertStatements` (part_001
lines 354-431): it differs from part_002 in being lenient on a
field-count mismatch (the row is skipped) and in dropping rows whose
first two trimmed fields are empty or the NULL literal.  Its `OptsT`
options are modelled by the same `Config` record, with `BatchInsert`
standing for `!NoBatchInsert`. -/
def genLoopP1 (cfg : Config) (hs ts : List String) :
    String → List String → List (List String) → String
  | sb, batch, [] =>
    if batch.isEmpty then sb else sb ++ formatBatchInsert cfg hs ts batch
  | sb, batch, r :: rs =>
    if r.length = hs.length then
      if p1RowIsNull cfg r then genLoopP1 cfg hs ts sb batch rs
      else
        let values := serializeRow cfg ts r
        if cfg.BatchInsert then
          let batch' := batch ++ ["(" ++ String.intercalate ", " values ++ ")"]
          if cfg.BatchSize ≤ batch'.length then
            genLoopP1 cfg hs ts (sb ++ formatBatchInsert cfg hs ts batch') [] rs
          else genLoopP1 cfg hs ts sb batch' rs
        else genLoopP1 cfg hs ts (sb ++ singleInsert cfg hs ts values) batch rs
    else genLoopP1 cfg hs ts sb batch rs

/-- part_001's `generateInsertStatements` over the data records. -/
def generateInsertStatementsP1 (cfg : Config) (hs ts : List String)
    (rows : List (List String)) : String :=
  genLoopP1 cfg hs ts "" [] rows

/-- Concatenation of a list of strings, used to describe the emitted
output. -/
def concatAll : List String → String
  | [] => ""
  | s :: rest => s ++ concatAll rest

/-- Split a list into consecutive chunks: each chunk takes `n` elements
(`1` when `n = 0`), the last chunk taking whatever remains.  Describes
the batching discipline of `genLoop`. -/
def chunks {α : Type} (n : Nat) : List α → List (List α)
  | [] => []
  | x :: xs => (x :: xs.take (n - 1)) :: chunks n (xs.drop (n - 1))
termination_by l => l.length
decreasing_by
  have := List.length_drop (n - 1) xs
  simp
  omega

/-- The number of non-skipped columns. -/
def countNonSkip (ts : List String) : Nat :=
  (ts.filter (fun t => t != "SKIP")).length

/-- The column-initialization invariant: a forced column carries its
forced type, and an unforced skipped column carries `SKIP`. -/
def ForcedInv (cfg : Config) (p : String × String) : Prop :=
  (∀ ft, lookupForce cfg p.1 = some ft → p.2 = ft) ∧
  (lookupForce cfg p.1 = none → p.1 ∈ cfg.SkipColumns → p.2 = "SKIP")

/-- A configuration with a small VARCHAR base length, used as concrete
input. -/
def cfg3 : Config := { defaultConfig with VarcharLength := 50 }

/-- A configuration with a large TEXT threshold, used as concrete input
to exercise VARCHAR widening beyond 65535. -/
def cfgBig : Config := { defaultConfig with TextThreshold := 100000 }

/-- A 60-character non-numeric, non-date value. -/
def v60 : String := ⟨List.replicate 60 'a'⟩

/-- A 100-character non-numeric, non-date value (its length is a
multiple of 50). -/
def v100 : String := ⟨List.replicate 100 'a'⟩

/-- A 65500-character non-numeric, non-date value, long enough that the
widening formula yields a capacity above 65535. -/
def vBig : String := ⟨'a' :: List.replicate 65499 'a'⟩

/-- A configuration with one forced and one skipped column, used as
concrete input. -/
def cfgW4 : Config :=
  { defaultConfig with ForceTypes := [("id", "INT")], SkipColumns := ["internal"] }

/-- A configuration with batch size 2, used as concrete input. -/
def cfgW7 : Config := { defaultConfig with TableName := "t", BatchSize := 2 }

/-- The default configuration with batch insertion disabled (one INSERT
statement per row), used as concrete input. -/
def cfgNB : Config := { defaultConfig with BatchInsert := false }

/-- A configuration whose primary keys name a skipped column and a
column absent from the headers, used as concrete input. -/
def cfgW10 : Config :=
  { defaultConfig with
      TableName := "t"
      PrimaryKeys := ["ghost", "internal"]
      SkipColumns := ["internal"] }

/-! ### Helper lemmas about `chunks` and `concatAll` -/

theorem chunks_nil {α : Type} (n : Nat) : chunks n ([] : List α) = [] := by
  simp [chunks]

theorem chunks_cons {α : Type} (n : Nat) (x : α) (xs : List α) :
    chunks n (x :: xs) = (x :: xs.take (n - 1)) :: chunks n (xs.drop (n - 1)) := by
  simp [chunks]

theorem chunks_flatten {α : Type} (n : Nat) (l : List α) : (chunks n l).flatten = l := by
  induction l using chunks.induct (n := n) with
  | case1 => simp [chunks_nil]
  | case2 x xs ih =>
    rw [chunks_cons]
    simp only [List.flatten_cons, ih, List.cons_append, List.take_append_drop]

theorem chunks_ne_nil {α : Type} (n : Nat) (l : List α) :
    ∀ c ∈ chunks n l, c ≠ [] := by
  induction l using chunks.induct (n := n) with
  | case1 => simp [chunks_nil]
  | case2 x xs ih =>
    rw [chunks_cons]
    intro c hc
    rcases List.mem_cons.mp hc with h | h
    · subst h; simp
    · exact ih c h

theorem chunks_length_le {α : Type} (n : Nat) (hn : 1 ≤ n) (l : List α) :
    ∀ c ∈ chunks n l, c.length ≤ n := by
  induction l using chunks.induct (n := n) with
  | case1 => simp [chunks_nil]
  | case2 x xs ih =>
    rw [chunks_cons]
    intro c hc
    rcases List.mem_cons.mp hc with h | h
    · subst h
      have := List.length_take (n - 1) xs
      simp only [List.length_cons, this]
      have : min (n - 1) xs.length ≤ n - 1 := Nat.min_le_left _ _
      omega
    · exact ih c h

theorem chunks_singleton {α : Type} (n : Nat) (l : List α) (h0 : l ≠ [])
    (hle : l.length ≤ n) : chunks n l = [l] := by
  cases l with
  | nil => exact absurd rfl h0
  | cons x xs =>
    rw [chunks_cons]
    have hxs : xs.length ≤ n - 1 := by simp at hle; omega
    rw [List.take_of_length_le hxs, List.drop_eq_nil_of_le hxs, chunks_nil]

theorem chunks_append {α : Type} (n : Nat) (l m : List α) (hn : 0 < n)
    (hl : l.length = n) : chunks n (l ++ m) = l :: chunks n m := by
  cases l with
  | nil => simp at hl; omega
  | cons x xs =>
    have hxs : xs.length = n - 1 := by simp at hl; omega
    rw [List.cons_append, chunks_cons, ← hxs, List.take_left, List.drop_left]

theorem concatAll_cons (s : String) (l : List String) :
    concatAll (s :: l) = s ++ concatAll l := rfl

/-! ### Helper lemmas about the insert-statement loop -/

theorem genLoop_eq_chunks (cfg : Config) (hs ts : List String)
    (hb : cfg.BatchInsert = true) (hbs : 1 ≤ cfg.BatchSize) :
    ∀ (rows : List (List String)) (sb : String) (batch : List String),
      (∀ r ∈ rows, r.length = hs.length) → batch.length < cfg.BatchSize →
      genLoop cfg hs ts sb batch rows =
        Except.ok (sb ++ concatAll ((chunks cfg.BatchSize
          (batch ++ rows.map (rowTuple cfg ts))).map (formatBatchInsert cfg hs ts))) := by
  intro rows
  induction rows with
  | nil =>
    intro sb batch _ hlt
    by_cases hbe : batch = []
    · subst hbe
      simp [genLoop, chunks_nil, concatAll, String.append_empty]
    · rw [genLoop]
      simp only [List.map_nil, List.append_nil]
      rw [chunks_singleton cfg.BatchSize batch hbe (Nat.le_of_lt hlt)]
      simp [List.isEmpty_iff, hbe, concatAll, String.append_empty, String.append_assoc]
  | cons r rs ih =>
    intro sb batch hlen hlt
    have hr : r.length = hs.length := hlen r (List.mem_cons_self r rs)
    have hlen' : ∀ x ∈ rs, x.length = hs.length := fun x hx => hlen x (List.mem_cons_of_mem r hx)
    rw [genLoop, if_pos hr, hb]
    simp only [if_true]
    have htup : "(" ++ String.intercalate ", " (serializeRow cfg ts r) ++ ")" =
        rowTuple cfg ts r := rfl
    by_cases hflush : cfg.BatchSize ≤ (batch ++ ["(" ++ String.intercalate ", " (serializeRow cfg ts r) ++ ")"]).length
    · rw [if_pos hflush, ih _ _ hlen' (by simp; omega)]
      have hfull : (batch ++ [rowTuple cfg ts r]).length = cfg.BatchSize := by
        simp at hflush ⊢; omega
      rw [htup]
      have : batch ++ rowTuple cfg ts r :: rs.map (rowTuple cfg ts) =
          (batch ++ [rowTuple cfg ts r]) ++ rs.map (rowTuple cfg ts) := by simp
      rw [List.map_cons, this,
        chunks_append cfg.BatchSize _ _ (by omega) hfull]
      simp [concatAll_cons, String.append_assoc]
    · rw [if_neg hflush]
      have hlt' : (batch ++ ["(" ++ String.intercalate ", " (serializeRow cfg ts r) ++ ")"]).length < cfg.BatchSize :=
        Nat.lt_of_not_le hflush
      rw [ih _ _ hlen' hlt', htup]
      have : (batch ++ [rowTuple cfg ts r]) ++ rs.map (rowTuple cfg ts) =
          batch ++ (r :: rs).map (rowTuple cfg ts) := by simp
      rw [← this]

theorem genLoop_eq_singles (cfg : Config) (hs ts : List String)
    (hb : cfg.BatchInsert = false) :
    ∀ (rows : List (List String)) (sb : String),
      (∀ r ∈ rows, r.length = hs.length) →
      genLoop cfg hs ts sb [] rows =
        Except.ok (sb ++ concatAll (rows.map
          (fun r => singleInsert cfg hs ts (serializeRow cfg ts r)))) := by
  intro rows
  induction rows with
  | nil =>
    intro sb _
    simp [genLoop, concatAll, String.append_empty]
  | cons r rs ih =>
    intro sb hlen
    have hr : r.length = hs.length := hlen r (List.mem_cons_self r rs)
    have hlen' : ∀ x ∈ rs, x.length = hs.length :=
      fun x hx => hlen x (List.mem_cons_of_mem r hx)
    rw [genLoop, if_pos hr]
    simp only [hb, Bool.false_eq_true, if_false]
    rw [ih _ hlen']
    simp [concatAll_cons, String.append_assoc]

theorem genLoop_error (cfg : Config) (hs ts : List String) :
    ∀ (rows : List (List String)) (sb : String) (batch : List String) (bad : List String),
      bad ∈ rows → bad.length ≠ hs.length →
      ∃ e, genLoop cfg hs ts sb batch rows = Except.error e := by
  intro rows
  induction rows with
  | nil => intro _ _ _ h; cases h
  | cons r rs ih =>
    intro sb batch bad hmem hbad
    rcases List.mem_cons.mp hmem with h | h
    · subst h
      rw [genLoop, if_neg hbad]
      exact ⟨_, rfl⟩
    · by_cases hr : r.length = hs.length
      · rw [genLoop, if_pos hr]
        by_cases hbi : cfg.BatchInsert
        · simp only [hbi, if_true]
          by_cases hflush : cfg.BatchSize ≤ (batch ++ ["(" ++ String.intercalate ", " (serializeRow cfg ts r) ++ ")"]).length
          · rw [if_pos hflush]; exact ih _ _ bad h hbad
          · rw [if_neg hflush]; exact ih _ _ bad h hbad
        · simp only [Bool.not_eq_true] at hbi
          simp only [hbi, Bool.false_eq_true, if_false]
          exact ih _ _ bad h hbad
      · rw [genLoop, if_neg hr]
        exact ⟨_, rfl⟩

/-! ### Helper lemmas about the sampling loop -/

theorem updateOne_of_forced (cfg : Config) (h t v : String)
    (hf : (lookupForce cfg h).isSome = true) : updateOne cfg h t v = t := by
  by_cases hsk : (t == "SKIP") = true <;> simp [updateOne, hsk, hf]

theorem updateOne_skip (cfg : Config) (h v : String) :
    updateOne cfg h "SKIP" v = "SKIP" := by simp [updateOne]

theorem updateTypes_inv (cfg : Config) :
    ∀ (hs ts rec : List String), (∀ p ∈ hs.zip ts, ForcedInv cfg p) →
      ∀ p ∈ hs.zip (updateTypes cfg hs ts rec), ForcedInv cfg p := by
  intro hs
  induction hs with
  | nil => intro ts rec _ p hp; simp at hp
  | cons h hs ih =>
    intro ts rec hinv p hp
    cases ts with
    | nil => simp [updateTypes] at hp
    | cons t ts =>
      cases rec with
      | nil => exact hinv p (by simpa [updateTypes] using hp)
      | cons v vs =>
        simp only [updateTypes, List.zip_cons_cons, List.mem_cons] at hp
        rcases hp with hp | hp
        · have hhead := hinv (h, t) (by simp [List.zip_cons_cons])
          subst hp
          constructor
          · intro ft hft
            have hf : (lookupForce cfg h).isSome = true := by simp [hft]
            rw [updateOne_of_forced cfg h t v hf]
            exact hhead.1 ft hft
          · intro hnone hmem
            have : t = "SKIP" := hhead.2 hnone hmem
            subst this
            exact updateOne_skip cfg h v
        · exact ih ts vs (fun q hq => hinv q (by simp [List.zip_cons_cons, hq])) p hp

theorem sampleLoop_inv (cfg : Config) (hs : List String) :
    ∀ (rows : List (List String)) (types : List String) (count : Nat),
      (∀ p ∈ hs.zip types, ForcedInv cfg p) →
      ∀ p ∈ hs.zip (sampleLoop cfg hs types rows count), ForcedInv cfg p := by
  intro rows
  induction rows with
  | nil => intro types count hinv; rw [sampleLoop]; exact hinv
  | cons r rs ih =>
    intro types count hinv
    rw [sampleLoop]
    by_cases hr : r.length = hs.length
    · rw [if_pos hr]
      by_cases hc : cfg.MaxSampleSize ≤ count + 1
      · simp only [hc, if_true]
        exact updateTypes_inv cfg hs types r hinv
      · simp only [hc, if_false]
        exact ih _ _ (updateTypes_inv cfg hs types r hinv)
    · rw [if_neg hr]
      exact ih _ _ hinv

theorem mem_zip_map {α β : Type} (f : α → β) :
    ∀ (l : List α) (p : α × β), p ∈ l.zip (l.map f) → p.2 = f p.1 := by
  intro l
  induction l with
  | nil => intro p hp; simp at hp
  | cons a l ih =>
    intro p hp
    simp only [List.map_cons, List.zip_cons_cons, List.mem_cons] at hp
    rcases hp with hp | hp
    · subst hp; rfl
    · exact ih p hp

theorem init_inv (cfg : Config) (hs : List String) :
    ∀ p ∈ hs.zip (hs.map (initType cfg)), ForcedInv cfg p := by
  intro p hp
  have h2 := mem_zip_map (initType cfg) hs p hp
  constructor
  · intro ft hft
    rw [h2]
    simp [initType, hft]
  · intro hnone hmem
    rw [h2]
    simp [initType, hnone, hmem]

theorem determineColumnTypes_nil (cfg : Config) (hs : List String) :
    determineColumnTypes cfg hs [] = hs.map (initType cfg) := by
  by_cases hall : (hs.map (initType cfg)).all allForcedCheck = true
  · simp [determineColumnTypes, hall]
  · simp only [determineColumnTypes, hall, Bool.false_eq_true, if_false]
    rw [sampleLoop]

theorem determineColumnTypes_inv (cfg : Config) (hs : List String)
    (rows : List (List String)) :
    ∀ p ∈ hs.zip (determineColumnTypes cfg hs rows), ForcedInv cfg p := by
  by_cases hall : (hs.map (initType cfg)).all allForcedCheck = true
  · simp only [determineColumnTypes, hall, if_true]
    exact init_inv cfg hs
  · simp only [determineColumnTypes, hall, Bool.false_eq_true, if_false]
    exact sampleLoop_inv cfg hs rows _ 0 (init_inv cfg hs)

/-! ### Characterizations of the skip-filtering loops -/

theorem createTableColumnDefs_eq :
    ∀ hs ts : List String, createTableColumnDefs hs ts =
      ((hs.zip ts).filter (fun p => p.2 != "SKIP")).map
        (fun p => "  `" ++ p.1 ++ "` " ++ p.2) := by
  intro hs
  induction hs with
  | nil => intro ts; cases ts <;> simp [createTableColumnDefs]
  | cons h hs ih =>
    intro ts
    cases ts with
    | nil => simp [createTableColumnDefs]
    | cons t ts =>
      by_cases hsk : t = "SKIP"
      · subst hsk
        simp [createTableColumnDefs, ih, List.filter_cons]
      · have hb : (t == "SKIP") = false := by simp [hsk]
        simp [createTableColumnDefs, hb, hsk, ih, List.filter_cons]

theorem insertColumnNames_eq :
    ∀ hs ts : List String, insertColumnNames hs ts =
      ((hs.zip ts).filter (fun p => p.2 != "SKIP")).map
        (fun p => "`" ++ p.1 ++ "`") := by
  intro hs
  induction hs with
  | nil => intro ts; cases ts <;> simp [insertColumnNames]
  | cons h hs ih =>
    intro ts
    cases ts with
    | nil => simp [insertColumnNames]
    | cons t ts =>
      by_cases hsk : t = "SKIP"
      · subst hsk
        simp [insertColumnNames, ih, List.filter_cons]
      · have hb : (t == "SKIP") = false := by simp [hsk]
        simp [insertColumnNames, hb, hsk, ih, List.filter_cons]

theorem serializeRow_eq (cfg : Config) :
    ∀ ts rec : List String, serializeRow cfg ts rec =
      ((ts.zip rec).filter (fun p => p.1 != "SKIP")).map
        (fun p => serializeValue cfg p.1 p.2) := by
  intro ts
  induction ts with
  | nil => intro rec; cases rec <;> simp [serializeRow]
  | cons t ts ih =>
    intro rec
    cases rec with
    | nil => simp [serializeRow]
    | cons v vs =>
      by_cases hsk : t = "SKIP"
      · subst hsk
        simp [serializeRow, ih, List.filter_cons]
      · have hb : (t == "SKIP") = false := by simp [hsk]
        simp [serializeRow, hb, hsk, ih, List.filter_cons]

theorem zip_map_fst_snd' {α β : Type} :
    ∀ l : List (α × β), (l.map Prod.fst).zip (l.map Prod.snd) = l := by
  intro l
  induction l with
  | nil => rfl
  | cons a l ih => simp [ih]

theorem filter_zip_snd_length :
    ∀ hs ts : List String, hs.length = ts.length →
      ((hs.zip ts).filter (fun p => p.2 != "SKIP")).length = countNonSkip ts := by
  intro hs
  induction hs with
  | nil => intro ts h; cases ts <;> simp_all [countNonSkip]
  | cons h hs ih =>
    intro ts hlen
    cases ts with
    | nil => simp at hlen
    | cons t ts =>
      simp only [List.length_cons, Nat.add_right_cancel_iff] at hlen
      have hrec := ih ts hlen
      by_cases hsk : t = "SKIP"
      · subst hsk
        simpa [countNonSkip, List.filter_cons] using hrec
      · have hb : (t == "SKIP") = false := by simp [hsk]
        simpa [countNonSkip, List.filter_cons, hb, hsk] using hrec

theorem filter_zip_fst_length :
    ∀ ts rec : List String, ts.length = rec.length →
      ((ts.zip rec).filter (fun p => p.1 != "SKIP")).length = countNonSkip ts := by
  intro ts
  induction ts with
  | nil => intro rec h; cases rec <;> simp_all [countNonSkip]
  | cons t ts ih =>
    intro rec hlen
    cases rec with
    | nil => simp at hlen
    | cons v vs =>
      simp only [List.length_cons, Nat.add_right_cancel_iff] at hlen
      have hrec := ih vs hlen
      by_cases hsk : t = "SKIP"
      · subst hsk
        simpa [countNonSkip, List.filter_cons] using hrec
      · have hb : (t == "SKIP") = false := by simp [hsk]
        simpa [countNonSkip, List.filter_cons, hb, hsk] using hrec

/-- A row of empty / NULL-literal fields serializes to all-`NULL`s. -/
theorem serializeRow_all_null (cfg : Config) :
    ∀ ts rec : List String, ts.length = rec.length →
      (∀ f ∈ rec, (trimS f == "" || eqFoldS (trimS f) cfg.NullString) = true) →
      serializeRow cfg ts rec = List.replicate (countNonSkip ts) "NULL" := by
  intro ts
  induction ts with
  | nil => intro rec h _; cases rec <;> simp_all [serializeRow, countNonSkip]
  | cons t ts ih =>
    intro rec hlen hnull
    cases rec with
    | nil => simp at hlen
    | cons v vs =>
      simp only [List.length_cons, Nat.add_right_cancel_iff] at hlen
      have hv := hnull v (List.mem_cons_self v vs)
      have hvs := fun f hf => hnull f (List.mem_cons_of_mem v hf)
      by_cases hsk : t = "SKIP"
      · subst hsk
        have h2 : countNonSkip ("SKIP" :: ts) = countNonSkip ts := by
          simp [countNonSkip, List.filter_cons]
        rw [show serializeRow cfg ("SKIP" :: ts) (v :: vs) = serializeRow cfg ts vs
          from by simp [serializeRow], h2]
        exact ih vs hlen hvs
      · have hb : (t == "SKIP") = false := by simp [hsk]
        simp only [serializeRow, hb, Bool.false_eq_true, if_false]
        rw [ih vs hlen hvs]
        have h1 : serializeValue cfg t v = "NULL" := by
          simp [serializeValue, hv]
        have h2 : countNonSkip (t :: ts) = countNonSkip ts + 1 := by
          simp [countNonSkip, List.filter_cons, hb, hsk]
        rw [h1, h2, List.replicate_succ]

/-! ### The escaping pipeline -/

theorem replaceAllChar_append (c : Char) (rep : List Char) :
    ∀ a b : List Char, replaceAllChar c rep (a ++ b) =
      replaceAllChar c rep a ++ replaceAllChar c rep b := by
  intro a b
  induction a with
  | nil => rfl
  | cons x xs ih =>
    by_cases hx : (x == c) = true <;>
      simp [replaceAllChar, hx, ih]

/-- The two sequential `ReplaceAll` passes equal a single per-character
doubling pass. -/
theorem escape_eq_flat :
    ∀ l : List Char, replaceAllChar '\\' ['\\', '\\'] (replaceAllChar '\'' ['\'', '\''] l) =
      (l.map escCharSpec).flatten := by
  intro l
  induction l with
  | nil => rfl
  | cons c rest ih =>
    simp only [List.map_cons, List.flatten_cons]
    by_cases h1 : c = '\''
    · subst h1
      rw [replaceAllChar]
      simp only [beq_self_eq_true, if_true]
      rw [show ['\'', '\''] ++ replaceAllChar '\'' ['\'', '\''] rest =
        ['\'', '\''] ++ replaceAllChar '\'' ['\'', '\''] rest from rfl]
      rw [replaceAllChar_append, ih]
      rw [show replaceAllChar '\\' ['\\', '\\'] ['\'', '\''] = ['\'', '\''] from by decide]
      rfl
    · by_cases h2 : c = '\\'
      · subst h2
        rw [replaceAllChar]
        rw [if_neg (by decide)]
        rw [replaceAllChar]
        simp only [beq_self_eq_true, if_true]
        rw [ih]
        rfl
      · have hb1 : (c == '\'') = false := by simp [h1]
        have hb2 : (c == '\\') = false := by simp [h2]
        rw [replaceAllChar, if_neg (by simp [hb1]), replaceAllChar, if_neg (by simp [hb2]), ih]
        simp [escCharSpec, hb1, hb2]

theorem escapeVal_eq (s : String) :
    escapeVal s = ⟨(s.data.map escCharSpec).flatten⟩ := by
  unfold escapeVal
  rw [escape_eq_flat]

/-! ### The sanitization pipeline -/

theorem collapseGo_mem :
    ∀ (l : List Char) (b : Bool), ∀ c ∈ collapseGo l b, isWordChar c = true := by
  intro l
  induction l with
  | nil => intro b c hc; simp [collapseGo] at hc
  | cons x xs ih =>
    intro b c hc
    by_cases hx : isWordChar x = true
    · rw [collapseGo, if_pos hx] at hc
      rcases List.mem_cons.mp hc with h | h
      · subst h; exact hx
      · exact ih false c h
    · rw [collapseGo, if_neg hx] at hc
      cases b with
      | true => exact ih true c (by simpa using hc)
      | false =>
        simp only [Bool.false_eq_true, if_false] at hc
        rcases List.mem_cons.mp hc with h | h
        · subst h; decide
        · exact ih true c h

theorem collapseNonWord_mem :
    ∀ l : List Char, ∀ c ∈ collapseNonWord l, isWordChar c = true := by
  intro l
  exact collapseGo_mem l false

theorem collapseGo_id :
    ∀ (l : List Char) (b : Bool), l.all isWordChar = true → collapseGo l b = l := by
  intro l
  induction l with
  | nil => intro b _; rfl
  | cons x xs ih =>
    intro b hall
    simp only [List.all_cons, Bool.and_eq_true] at hall
    rw [collapseGo, if_pos hall.1, ih false hall.2]

theorem collapseNonWord_id :
    ∀ l : List Char, l.all isWordChar = true → collapseNonWord l = l := by
  intro l h
  exact collapseGo_id l false h

/-! ### Failure of the numeric and date classifiers on non-matching heads -/

theorem isIntegerL_false_of (c : Char) (r : List Char) (h1 : (c == '-') = false)
    (h2 : (c == '+') = false) (h3 : c.isDigit = false) :
    isIntegerL (c :: r) = false := by
  simp [isIntegerL, h1, h2, allDigits, h3]

theorem decFloatOk_false_of (c : Char) (r : List Char) (h3 : c.isDigit = false)
    (h4 : (c == '.') = false) : decFloatOk (c :: r) = false := by
  unfold decFloatOk
  simp only [List.takeWhile_cons, List.dropWhile_cons, h3, Bool.false_eq_true, if_false]
  simp [h4]

theorem goEqualFold_false_head (a : Char) (as : List Char) (b : Char) (bs : List Char)
    (h : (foldChar a == foldChar b) = false) : goEqualFold (a :: as) (b :: bs) = false := by
  simp [goEqualFold, h]

theorem goParseFloatOk_false_of (c : Char) (r : List Char)
    (hsign : (c == '+' || c == '-') = false) (hd : c.isDigit = false)
    (hdot : (c == '.') = false) (hi : (foldChar c == 'i') = false)
    (hn : (foldChar c == 'n') = false) : goParseFloatOk (c :: r) = false := by
  have hfi : (foldChar c == foldChar 'i') = false := by
    rw [show foldChar 'i' = 'i' from by decide]; exact hi
  have hfn : (foldChar c == foldChar 'n') = false := by
    rw [show foldChar 'n' = 'n' from by decide]; exact hn
  have e1 : goEqualFold (c :: r) ['i', 'n', 'f'] = false :=
    goEqualFold_false_head c r 'i' _ hfi
  have e2 : goEqualFold (c :: r) ['i', 'n', 'f', 'i', 'n', 'i', 't', 'y'] = false :=
    goEqualFold_false_head c r 'i' _ hfi
  have e3 : goEqualFold (c :: r) ['n', 'a', 'n'] = false :=
    goEqualFold_false_head c r 'n' _ hfn
  have e4 : decFloatOk (c :: r) = false := decFloatOk_false_of c r hd hdot
  simp [goParseFloatOk, show stripSignF (c :: r) = c :: r from by simp [stripSignF, hsign],
    e1, e2, e3, e4]

theorem matchShape_false_head (p : Char → Bool) (ps : List (Char → Bool))
    (c : Char) (cs : List Char) (h : p c = false) :
    matchShape (p :: ps) (c :: cs) = false := by
  simp [matchShape, h]

theorem isDateL_false_of (c : Char) (r : List Char) (h : c.isDigit = false) :
    isDateL (c :: r) = false := by
  simp only [isDateL, patYMD, patMDY, List.cons_append, matchShape, h,
    Bool.false_and, Bool.or_self]

theorem sampleLoop_skip (cfg : Config) (hs : List String) (bad : List String)
    (hbad : bad.length ≠ hs.length) (post : List (List String)) :
    ∀ (pre : List (List String)) (types : List String) (count : Nat),
      sampleLoop cfg hs types (pre ++ bad :: post) count =
        sampleLoop cfg hs types (pre ++ post) count := by
  intro pre
  induction pre with
  | nil =>
    intro types count
    simp only [List.nil_append]
    rw [sampleLoop, if_neg hbad]
  | cons p pre ih =>
    intro types count
    simp only [List.cons_append]
    rw [sampleLoop, sampleLoop]
    by_cases hp : p.length = hs.length
    · rw [if_pos hp, if_pos hp]
      by_cases hc : cfg.MaxSampleSize ≤ count + 1
      · simp only [hc, if_true]
      · simp only [hc, if_false, ih]
    · rw [if_neg hp, if_neg hp, ih]

/-- The text branch of `refineType`: a value that is neither integer nor
decimal nor date, whose length is within the TEXT threshold and above
the configured VARCHAR length, widens to `VARCHAR((len/50 + 1) * 50)`. -/
theorem refineType_text_branch (cfg : Config) (t v : String)
    (h1 : isInteger v = false) (h2 : isDecimal v = false) (h3 : isDate v = false)
    (h4 : v.data.length ≤ cfg.TextThreshold) (h5 : cfg.VarcharLength < v.data.length) :
    refineType cfg t v = "VARCHAR(" ++ toString ((v.data.length / 50 + 1) * 50) ++ ")" := by
  simp only [refineType, h1, h2, h3, Bool.false_eq_true, if_false]
  rw [if_neg (by omega), if_pos h5]

/-! ### Claim C1 -/

/-- C1 is false as stated: for a column of resolved type `BIGINT` (the
type the classifier gives integer columns) and the value `42`, which
parses as a float, the serializer emits the quoted literal `'42'`, not
the unquoted `42` the claim requires for numeric types including
`BIGINT`. -/
theorem c1_counterexample_bigint_quoted :
    goParseFloatOk (trimS "42").data = true ∧
    serializeValue defaultConfig "BIGINT" "42" = "'42'" ∧
    ("'42'" : String) ≠ "42" := by
  refine ⟨by decide, by decide, by decide⟩

/-- C1 (amended): for a non-skipped column and a field whose trimmed
value is nonempty and not the NULL literal, the serializer doubles every
single quote and every backslash (the two sequential ReplaceAll passes
equal one per-character doubling pass), and emits the escaped result
unquoted exactly when the column type is `INT` or `DECIMAL(20,6)` (not
`BIGINT`) and the trimmed pre-escaping value parses as a float;
otherwise the escaped result is wrapped in single quotes. -/
theorem c1_serializeValue_numeric_unquoted (cfg : Config) (t v : String)
    (h1 : (trimS v == "") = false) (h2 : eqFoldS (trimS v) cfg.NullString = false) :
    serializeValue cfg t v =
      (if (t == "INT" || t == "DECIMAL(20,6)") && goParseFloatOk (trimS v).data
       then escapeVal (trimS v) else "'" ++ escapeVal (trimS v) ++ "'") ∧
    escapeVal (trimS v) = ⟨((trimS v).data.map escCharSpec).flatten⟩ := by
  constructor
  · simp [serializeValue, h1, h2]
  · exact escapeVal_eq (trimS v)

/-- Witness for C1 at the value `42` in an `INT` column. -/
theorem c1_witness :
    (trimS "42" == "") = false ∧ serializeValue defaultConfig "INT" "42" = "42" := by
  have h := (c1_serializeValue_numeric_unquoted defaultConfig "INT" "42"
    (by decide) (by decide)).1
  exact ⟨by decide, h.trans (by decide)⟩

/-! ### Claim C2 -/

/-- C2 is false as stated: a column already classified `TEXT` is
re-classified `BIGINT` by a later integer value, so a column that is
`TEXT` does not stay `TEXT`. -/
theorem c2_counterexample_text_to_bigint :
    refineType defaultConfig "TEXT" "42" = "BIGINT" ∧ ("BIGINT" : String) ≠ "TEXT" := by
  refine ⟨by decide, by decide⟩

/-- C2 (amended): `refineType` is not monotonic — it ignores the current
type entirely and re-classifies each value from scratch (its result is
the same for any two current types), so a `TEXT` column is narrowed to
`BIGINT` by an integer value and a widened `VARCHAR(300)` shrinks back
to `VARCHAR(255)` on a short text value. -/
theorem c2_refineType_value_only :
    (∀ (cfg : Config) (t t' v : String), refineType cfg t v = refineType cfg t' v) ∧
    refineType defaultConfig "TEXT" "42" = "BIGINT" ∧
    refineType defaultConfig "VARCHAR(300)" "xy" = "VARCHAR(255)" := by
  refine ⟨fun cfg t t' v => rfl, by decide, by decide⟩

/-! ### Claim C3 -/

/-- C3 is false as stated: for a 100-character text value (100 is a
multiple of 50) above the VARCHAR base of 50, the code widens to
`VARCHAR(150)` while `ceil(100/50)*50 = 100`; and for a 65500-character
value within a 100000 TEXT threshold the code produces `VARCHAR(65550)`,
above 65535, with no TEXT cap. -/
theorem c3_counterexample_varchar_rounding :
    refineType cfg3 "VARCHAR(50)" v100 = "VARCHAR(150)" ∧
    ((100 + 49) / 50) * 50 = 100 ∧
    refineType cfgBig "VARCHAR(255)" vBig = "VARCHAR(65550)" ∧
    65535 < 65550 := by
  refine ⟨by decide, by decide, ?_, by norm_num⟩
  have hd : ('a').isDigit = false := by decide
  have hInt : isInteger vBig = false :=
    isIntegerL_false_of 'a' _ (by decide) (by decide) hd
  have hDec : isDecimal vBig = false :=
    goParseFloatOk_false_of 'a' _ (by decide) hd (by decide) (by decide) (by decide)
  have hDate : isDate vBig = false := isDateL_false_of 'a' _ hd
  have hlen : vBig.data.length = 65500 := by
    show (('a' : Char) :: List.replicate 65499 'a').length = 65500
    rw [List.length_cons, List.length_replicate]
  have h4 : vBig.data.length ≤ cfgBig.TextThreshold := by
    rw [hlen]; norm_num [cfgBig, defaultConfig]
  have h5 : cfgBig.VarcharLength < vBig.data.length := by
    rw [hlen]; norm_num [cfgBig, defaultConfig]
  have h := refineType_text_branch cfgBig "VARCHAR(255)" vBig hInt hDec hDate h4 h5
  rw [h, hlen]
  decide

/-- C3 (amended): when the classifier processes a text value of length
`L` with `L` above the configured `VarcharLength` and not above the TEXT
threshold, the new capacity is `(L/50 + 1) * 50` under integer division —
the least multiple of 50 strictly greater than `L`, so `L + 50` when `L`
is itself a multiple of 50 — and `refineType` applies no 65535 cap (a
capacity above 65535 is emitted as a VARCHAR; the cap exists only in the
`main.go` draft). -/
theorem c3_refineType_varchar_widening (cfg : Config) (t v : String)
    (h1 : isInteger v = false) (h2 : isDecimal v = false) (h3 : isDate v = false)
    (h4 : v.data.length ≤ cfg.TextThreshold) (h5 : cfg.VarcharLength < v.data.length) :
    refineType cfg t v = "VARCHAR(" ++ toString ((v.data.length / 50 + 1) * 50) ++ ")" ∧
    (50 ∣ v.data.length → (v.data.length / 50 + 1) * 50 = v.data.length + 50) := by
  refine ⟨refineType_text_branch cfg t v h1 h2 h3 h4 h5, ?_⟩
  rintro ⟨k, hk⟩
  rw [hk, Nat.mul_div_cancel_left k (by norm_num)]
  ring

/-- Witness for C3 at a 60-character value over a VARCHAR(50) base. -/
theorem c3_witness :
    isInteger v60 = false ∧ cfg3.VarcharLength < v60.data.length ∧
    refineType cfg3 "VARCHAR(50)" v60 = "VARCHAR(100)" := by
  have h := (c3_refineType_varchar_widening cfg3 "VARCHAR(50)" v60
    (by decide) (by decide) (by decide) (by decide) (by decide)).1
  exact ⟨by decide, by decide, h.trans (by decide)⟩

/-! ### Claim C4 -/

/-- C4 is false as stated: a column that is neither forced nor skipped
is initialized to `TEXT`, not to `VARCHAR(VarcharLength)` =
`VARCHAR(255)`. -/
theorem c4_counterexample_default_init_text :
    determineColumnTypes defaultConfig ["a"] [] = ["TEXT"] ∧
    determineColumnTypes defaultConfig ["a"] [] ≠ ["VARCHAR(255)"] := by
  refine ⟨by decide, by decide⟩

/-- C4 (amended): for every column, the forced type (matched by
sanitized name) takes absolute precedence and is never refined — the
resolved type equals the forced type after sampling any rows; otherwise
the type is `SKIP` when the name is in the skip set; otherwise, before
any row is sampled, the column starts at `TEXT` (not at the base VARCHAR
type). -/
theorem c4_column_type_initialization (cfg : Config) (hs : List String)
    (rows : List (List String)) :
    ∀ p ∈ hs.zip (determineColumnTypes cfg hs rows),
      (∀ ft, lookupForce cfg p.1 = some ft → p.2 = ft) ∧
      (lookupForce cfg p.1 = none → p.1 ∈ cfg.SkipColumns → p.2 = "SKIP") ∧
      (lookupForce cfg p.1 = none → p.1 ∉ cfg.SkipColumns → rows = [] → p.2 = "TEXT") := by
  intro p hp
  have hinv := determineColumnTypes_inv cfg hs rows p hp
  refine ⟨hinv.1, hinv.2, ?_⟩
  intro hnone hnskip hrows
  subst hrows
  rw [determineColumnTypes_nil] at hp
  rw [mem_zip_map (initType cfg) hs p hp]
  simp [initType, hnone, hnskip]

/-- Witness for C4: the forced `id : INT` column keeps its forced type
although the sampled value `9` would classify as `BIGINT`. -/
theorem c4_witness :
    (("id", "INT") ∈ (["id", "internal", "name"]).zip
      (determineColumnTypes cfgW4 ["id", "internal", "name"] [["9", "x", "hello"]])) ∧
    (∀ ft, lookupForce cfgW4 "id" = some ft → "INT" = ft) := by
  have hmem : ("id", "INT") ∈ (["id", "internal", "name"]).zip
      (determineColumnTypes cfgW4 ["id", "internal", "name"] [["9", "x", "hello"]]) := by
    decide
  exact ⟨hmem, (c4_column_type_initialization cfgW4 _ _ ("id", "INT") hmem).1⟩

/-! ### Claim C5 -/

/-- C5: a row whose field count differs from the header count is skipped
by the sampling pass (the resolved types are as if the row were absent)
but is fatal for the serialization pass, which returns an error and no
DML output. -/
theorem c5_row_shape_mismatch_asymmetry (cfg : Config) (hs ts : List String)
    (pre post : List (List String)) (bad : List String)
    (hbad : bad.length ≠ hs.length) :
    determineColumnTypes cfg hs (pre ++ bad :: post) =
      determineColumnTypes cfg hs (pre ++ post) ∧
    ∃ e, generateInsertStatements cfg hs ts (pre ++ bad :: post) = Except.error e := by
  constructor
  · by_cases hall : ((hs.map (initType cfg)).all allForcedCheck) = true
    · simp [determineColumnTypes, hall]
    · simp only [determineColumnTypes, hall, Bool.false_eq_true, if_false]
      exact sampleLoop_skip cfg hs bad hbad post pre _ 0
  · exact genLoop_error cfg hs ts _ "" [] bad
      (List.mem_append_right pre (List.mem_cons_self bad post)) hbad

/-- Witness for C5 at a one-field row among two-column data. -/
theorem c5_witness :
    (["x"] : List String).length ≠ (["a", "b"] : List String).length ∧
    determineColumnTypes defaultConfig ["a", "b"] [["1", "2"], ["x"]] =
      determineColumnTypes defaultConfig ["a", "b"] [["1", "2"]] ∧
    ∃ e, generateInsertStatements defaultConfig ["a", "b"] ["TEXT", "TEXT"]
      [["1", "2"], ["x"]] = Except.error e := by
  have h := c5_row_shape_mismatch_asymmetry defaultConfig ["a", "b"] ["TEXT", "TEXT"]
    [["1", "2"]] [] ["x"] (by decide)
  exact ⟨by decide, h.1, h.2⟩

/-! ### Claim C6 -/

/-- C6 is false as stated: the part_001 serializer drops a row whose
fields are all empty, so the all-`NULL` tuple `(NULL, NULL)` that the
row would serialize to never reaches the output (the emitted DML is
empty). -/
theorem c6_counterexample_p1_drops_all_null_row :
    rowTuple defaultConfig ["TEXT", "TEXT"] ["", ""] = "(NULL, NULL)" ∧
    generateInsertStatementsP1 defaultConfig ["a", "b"] ["TEXT", "TEXT"] [["", ""]] = "" := by
  refine ⟨by decide, by decide⟩

/-- C6 (amended): in the part_002 serializer, a row whose every field
trims to empty or the NULL literal serializes to one unquoted `NULL` per
non-skipped column, and — in batch mode as well as in single-row INSERT
mode — that all-`NULL` tuple reaches the emitted output (nothing is
dropped): in batch mode its tuple is among the tuples partitioned into
the emitted batch statements, and in single-row mode the output is
exactly one INSERT statement per input row, the all-null row's statement
among them; the part_001 variant instead drops any row whose first two
trimmed fields are empty or the NULL literal, so such a row produces no
tuple there. -/
theorem c6_all_null_row_tuple (cfg : Config) (hs ts : List String)
    (rows : List (List String)) (row : List String)
    (hmem : row ∈ rows) (hlen : ∀ r ∈ rows, r.length = hs.length)
    (hts : ts.length = hs.length)
    (hnull : ∀ f ∈ row, (trimS f == "" || eqFoldS (trimS f) cfg.NullString) = true) :
    serializeRow cfg ts row = List.replicate (countNonSkip ts) "NULL" ∧
    rowTuple cfg ts row ∈ rows.map (rowTuple cfg ts) ∧
    (cfg.BatchInsert = true → 1 ≤ cfg.BatchSize →
      (chunks cfg.BatchSize (rows.map (rowTuple cfg ts))).flatten =
        rows.map (rowTuple cfg ts) ∧
      generateInsertStatements cfg hs ts rows =
        Except.ok (concatAll ((chunks cfg.BatchSize (rows.map (rowTuple cfg ts))).map
          (formatBatchInsert cfg hs ts)))) ∧
    (cfg.BatchInsert = false →
      generateInsertStatements cfg hs ts rows =
        Except.ok (concatAll (rows.map
          (fun r => singleInsert cfg hs ts (serializeRow cfg ts r)))) ∧
      singleInsert cfg hs ts (serializeRow cfg ts row) ∈
        rows.map (fun r => singleInsert cfg hs ts (serializeRow cfg ts r))) := by
  have hrl : row.length = hs.length := hlen row hmem
  refine ⟨serializeRow_all_null cfg ts row (hts.trans hrl.symm) hnull,
    List.mem_map_of_mem _ hmem, ?_, ?_⟩
  · intro hb hbs
    refine ⟨chunks_flatten _ _, ?_⟩
    have h := genLoop_eq_chunks cfg hs ts hb hbs rows "" [] hlen (by simp; omega)
    simpa [generateInsertStatements, String.empty_append] using h
  · intro hb
    refine ⟨?_, List.mem_map_of_mem _ hmem⟩
    have h := genLoop_eq_singles cfg hs ts hb rows "" hlen
    simpa [generateInsertStatements, String.empty_append] using h

/-- Witness for C6 at the all-null row `[" ", "null"]`, in batch mode
and in single-row INSERT mode. -/
theorem c6_witness :
    serializeRow defaultConfig ["TEXT", "TEXT"] [" ", "null"] =
      List.replicate (countNonSkip ["TEXT", "TEXT"]) "NULL" ∧
    generateInsertStatements defaultConfig ["a", "b"] ["TEXT", "TEXT"]
      [[" ", "null"], ["1", "2"]] =
      Except.ok (concatAll ((chunks defaultConfig.BatchSize
        (([[" ", "null"], ["1", "2"]]).map (rowTuple defaultConfig ["TEXT", "TEXT"]))).map
        (formatBatchInsert defaultConfig ["a", "b"] ["TEXT", "TEXT"]))) ∧
    generateInsertStatements cfgNB ["a", "b"] ["TEXT", "TEXT"]
      [[" ", "null"], ["1", "2"]] =
      Except.ok (concatAll (([[" ", "null"], ["1", "2"]]).map
        (fun r => singleInsert cfgNB ["a", "b"] ["TEXT", "TEXT"]
          (serializeRow cfgNB ["TEXT", "TEXT"] r)))) := by
  have h1 := c6_all_null_row_tuple defaultConfig ["a", "b"] ["TEXT", "TEXT"]
    [[" ", "null"], ["1", "2"]] [" ", "null"]
    (by decide) (by decide) (by decide) (by decide)
  have h2 := c6_all_null_row_tuple cfgNB ["a", "b"] ["TEXT", "TEXT"]
    [[" ", "null"], ["1", "2"]] [" ", "null"]
    (by decide) (by decide) (by decide) (by decide)
  exact ⟨h1.1, (h1.2.2.1 (by decide) (by decide)).2, (h2.2.2.2 (by decide)).1⟩

/-! ### Claim C7 -/

/-- C7: in batch mode with well-shaped rows, the emitted DML is exactly
the concatenation of one batch statement per chunk of the row tuples;
the chunks partition the tuples (each serialized row appears in exactly
one statement, in order), every chunk is nonempty, and no chunk exceeds
`BatchSize` rows. -/
theorem c7_batching_discipline (cfg : Config) (hs ts : List String)
    (rows : List (List String)) (hb : cfg.BatchInsert = true)
    (hbs : 1 ≤ cfg.BatchSize) (hlen : ∀ r ∈ rows, r.length = hs.length) :
    generateInsertStatements cfg hs ts rows =
      Except.ok (concatAll ((chunks cfg.BatchSize (rows.map (rowTuple cfg ts))).map
        (formatBatchInsert cfg hs ts))) ∧
    (chunks cfg.BatchSize (rows.map (rowTuple cfg ts))).flatten =
      rows.map (rowTuple cfg ts) ∧
    (∀ c ∈ chunks cfg.BatchSize (rows.map (rowTuple cfg ts)),
      c ≠ [] ∧ c.length ≤ cfg.BatchSize) := by
  refine ⟨?_, chunks_flatten _ _,
    fun c hc => ⟨chunks_ne_nil _ _ c hc, chunks_length_le _ hbs _ c hc⟩⟩
  have h := genLoop_eq_chunks cfg hs ts hb hbs rows "" [] hlen (by simp; omega)
  simpa [generateInsertStatements, String.empty_append] using h

/-- Witness for C7: three rows under batch size 2 give two statements. -/
theorem c7_witness :
    generateInsertStatements cfgW7 ["a"] ["TEXT"] [["1"], ["2"], ["3"]] =
      Except.ok (concatAll ((chunks cfgW7.BatchSize (([["1"], ["2"], ["3"]]).map
        (rowTuple cfgW7 ["TEXT"]))).map (formatBatchInsert cfgW7 ["a"] ["TEXT"]))) ∧
    (∀ c ∈ chunks cfgW7.BatchSize (([["1"], ["2"], ["3"]]).map (rowTuple cfgW7 ["TEXT"])),
      c ≠ [] ∧ c.length ≤ cfgW7.BatchSize) := by
  have h := c7_batching_discipline cfgW7 ["a"] ["TEXT"] [["1"], ["2"], ["3"]]
    (by decide) (by decide) (by decide)
  exact ⟨h.1, h.2.2⟩

/-! ### Claim C8 -/

/-- C8: the CREATE TABLE column definitions, the INSERT column names,
and the serialized value literals are exactly those of the non-`SKIP`
columns, in header order (a `SKIP` column contributes nothing to any of
the three), and under matching lengths the INSERT column list and every
value tuple share the same length, the number of non-skipped columns. -/
theorem c8_skip_columns_excluded (cfg : Config) (hs ts rec : List String) :
    createTableColumnDefs hs ts =
      ((hs.zip ts).filter (fun p => p.2 != "SKIP")).map
        (fun p => "  `" ++ p.1 ++ "` " ++ p.2) ∧
    insertColumnNames hs ts =
      ((hs.zip ts).filter (fun p => p.2 != "SKIP")).map (fun p => "`" ++ p.1 ++ "`") ∧
    serializeRow cfg ts rec =
      ((ts.zip rec).filter (fun p => p.1 != "SKIP")).map
        (fun p => serializeValue cfg p.1 p.2) ∧
    (hs.length = ts.length → rec.length = ts.length →
      (insertColumnNames hs ts).length = countNonSkip ts ∧
      (serializeRow cfg ts rec).length = countNonSkip ts) := by
  refine ⟨createTableColumnDefs_eq hs ts, insertColumnNames_eq hs ts,
    serializeRow_eq cfg ts rec, ?_⟩
  intro hhs hrec
  constructor
  · rw [insertColumnNames_eq hs ts, List.length_map]
    exact filter_zip_snd_length hs ts hhs
  · rw [serializeRow_eq cfg ts rec, List.length_map]
    exact filter_zip_fst_length ts rec hrec.symm

/-- Witness for C8 at a three-column table whose middle column is
skipped. -/
theorem c8_witness :
    (insertColumnNames ["a", "b", "c"] ["TEXT", "SKIP", "INT"]).length =
      countNonSkip ["TEXT", "SKIP", "INT"] ∧
    (serializeRow defaultConfig ["TEXT", "SKIP", "INT"] ["x", "y", "3"]).length =
      countNonSkip ["TEXT", "SKIP", "INT"] :=
  (c8_skip_columns_excluded defaultConfig ["a", "b", "c"] ["TEXT", "SKIP", "INT"]
    ["x", "y", "3"]).2.2.2 (by decide) (by decide)

/-! ### Claim C9 -/

/-- C9 is false as stated: the sanitization regex `[^a-zA-Z0-9_]+`
replaces each maximal RUN of non-word characters by one underscore, so
`a  b` (two spaces) sanitizes to `a_b`, not to the `a__b` that replacing
every character individually would give. -/
theorem c9_counterexample_run_collapse :
    sanitizeColumnName "a  b" = "a_b" ∧
    sanitizePerCharSpec "a  b" = "a__b" ∧
    sanitizeColumnName "a  b" ≠ sanitizePerCharSpec "a  b" := by
  refine ⟨by decide, by decide, by decide⟩

/-- C9 (amended): the sanitizer trims surrounding whitespace, replaces
every maximal run of characters that are not ASCII letters, digits or
underscores by a single underscore (per-character replacement would
differ on runs), trims leading and trailing underscores, prefixes an
underscore when the result does not start with a letter or underscore,
and lowercases; `Order ID` and `Customer Name` sanitize to `order_id`
and `customer_name`, the replacement step emits only word characters,
and it leaves a string of word characters unchanged. -/
theorem c9_sanitizer :
    sanitizeColumnName "Order ID" = "order_id" ∧
    sanitizeColumnName "Customer Name" = "customer_name" ∧
    (∀ l : List Char, ∀ c ∈ collapseNonWord l, isWordChar c = true) ∧
    (∀ l : List Char, l.all isWordChar = true → collapseNonWord l = l) := by
  exact ⟨by decide, by decide, collapseNonWord_mem, collapseNonWord_id⟩

/-- Witness for C9: the replacement step's output on `x!` contains the
word character `x`. -/
theorem c9_witness :
    isWordChar 'x' = true ∧ sanitizeColumnName "Order ID" = "order_id" := by
  have h := c9_sanitizer
  exact ⟨h.2.2.1 ['x', '!'] 'x' (by decide), h.1⟩

/-! ### Claim C10 -/

/-- C10: whenever the primary-key list is nonempty, the emitted CREATE
TABLE text ends its column list with a PRIMARY KEY clause containing
exactly the configured names, backtick-quoted, in order — with no
validation against the headers, the skip set, or the resolved types,
which the statement does not constrain at all. -/
theorem c10_primary_key_clause (cfg : Config) (hs ts : List String)
    (hpk : cfg.PrimaryKeys ≠ []) :
    generateCreateTable cfg hs ts =
      "CREATE TABLE `" ++ cfg.TableName ++ "` (\n" ++
        String.intercalate ",\n" (createTableColumnDefs hs ts ++
          ["  PRIMARY KEY (" ++ String.intercalate ", "
            (cfg.PrimaryKeys.map (fun pk => "`" ++ pk ++ "`")) ++ ")"]) ++
        "\n) ENGINE=InnoDB DEFAULT CHARSET=utf8mb4 COLLATE=utf8mb4_unicode_ci;" := by
  unfold generateCreateTable createTableColumns
  rw [if_neg (by simp [List.isEmpty_iff, hpk])]

/-- Witness for C10: a primary key naming a skipped column and a column
absent from the headers still appears verbatim in the DDL. -/
theorem c10_witness :
    cfgW10.PrimaryKeys ≠ [] ∧
    generateCreateTable cfgW10 ["a", "internal"] ["TEXT", "SKIP"] =
      "CREATE TABLE `t` (\n  `a` TEXT,\n  PRIMARY KEY (`ghost`, `internal`)\n) ENGINE=InnoDB DEFAULT CHARSET=utf8mb4 COLLATE=utf8mb4_unicode_ci;" := by
  have h := c10_primary_key_clause cfgW10 ["a", "internal"] ["TEXT", "SKIP"] (by decide)
  exact ⟨by decide, h.trans (by decide)⟩

end Csv2Sql
